import Mathlib

/-!
# Brain-Atlas-Checker: a shallow embedding of `src/atlas_checker.py`

This file embeds the scan–extract–reconcile pipeline of `atlas_checker.py`
into Lean 4 and proves/refutes the specification's claims about it.

Modelling conventions:

* Python strings are `String`, Python integers are `Int`, Python sets of
  integers are `Finset Int`.
* CPython's finite floating-point values are modelled as rationals `ℚ`
  (every finite IEEE-754 double is a rational); the NaN sentinel is a
  separate constructor.  This suffices for the value-coercion claims, which
  are about fractional parts and non-numeric sentinels, not about rounding
  of the binary representation.
* Fallible Python code is modelled with `Except`/`Option`; a raised
  exception that escapes a function is an `Except.error`.
* The filesystem is a tree of named entries; a missing file/root is
  modelled with `Option`.
-/

/-! ## Python `int(...)` on strings

Models CPython's `int(s)` for a `str` argument: surrounding ASCII
whitespace is stripped, an optional single `+`/`-` sign is allowed, then a
non-empty run of decimal digits in which single underscores may appear
between digits (as in CPython ≥ 3.6).  Non-ASCII digit forms are outside
the modelled domain.  Result `none` models a raised `ValueError`. -/

/-- No two consecutive underscores anywhere in the character list. -/
def noDoubleUnderscore : List Char → Bool
  | a :: b :: rest => !(a = '_' && b = '_') && noDoubleUnderscore (b :: rest)
  | _ => true

/-- Digit run as accepted by CPython `int`: non-empty, starts and ends with
a digit, every character is a digit or `_`, and no two consecutive `_`. -/
def pyDigitRun : List Char → Bool
  | [] => false
  | c :: rest =>
    c.isDigit &&
    ((c :: rest).getLast (List.cons_ne_nil c rest)).isDigit &&
    (c :: rest).all (fun d => d.isDigit || d = '_') &&
    noDoubleUnderscore (c :: rest)

/-- Numeric value of a digit run, skipping underscores. -/
def digitRunVal (cs : List Char) : Nat :=
  cs.foldl (fun acc c => if c = '_' then acc else acc * 10 + (c.toNat - '0'.toNat)) 0

/-- `str.strip()`-style removal of leading and trailing whitespace, the
first step of CPython `int` on a string. -/
def pyStrip (cs : List Char) : List Char :=
  ((cs.dropWhile Char.isWhitespace).reverse.dropWhile Char.isWhitespace).reverse

/-- CPython `int(s)` for strings: `some n` on success, `none` models
`ValueError`. -/
def pyParseInt (s : String) : Option Int :=
  let cs := pyStrip s.toList
  match cs with
  | '-' :: rest => if pyDigitRun rest then some (-(digitRunVal rest : Int)) else none
  | '+' :: rest => if pyDigitRun rest then some (digitRunVal rest : Int) else none
  | _ => if pyDigitRun cs then some (digitRunVal cs : Int) else none

/-! ## The catalog CSV and `get_csv_ids` (src/atlas_checker.py lines 37–71)

The CSV file after `csv`-module parsing is a header row plus data rows of
string cells (`csv.DictReader` exposes exactly this).  Malformed-CSV
`csv.Error` cases are below this level of modelling; all claims concern
well-formed row streams. -/

/-- Equality of `Except` results is decidable when both components are;
used to evaluate concrete catalog loads in witnesses. -/
instance {ε α : Type _} [DecidableEq ε] [DecidableEq α] : DecidableEq (Except ε α) := fun x y =>
  match x, y with
  | .ok a, .ok b => if h : a = b then .isTrue (by rw [h]) else .isFalse (by simp [h])
  | .error a, .error b => if h : a = b then .isTrue (by rw [h]) else .isFalse (by simp [h])
  | .ok _, .error _ => .isFalse (by simp)
  | .error _, .ok _ => .isFalse (by simp)

/-- A parsed CSV file: the header row and the data rows. -/
structure CsvFile where
  header : List String
  rows : List (List String)

/-- The value `csv.DictReader` hands to `row["id"]`-style lookups: either a
cell string, or Python `None` (the `restval` padding a short row gets). -/
inductive PyCell where
  | cellStr (s : String)
  | pyNone
deriving DecidableEq, Repr

/-- Index of the last occurrence of `key` in `header` (in
`dict(zip(fieldnames, row))`, a later duplicate column overwrites an
earlier one, and the short-row padding loop assigns in fieldname order). -/
def lastIdxOf (key : String) (header : List String) : Option Nat :=
  header.enum.foldl (fun acc pr => if pr.2 = key then some pr.1 else acc) none

/-- `row[key]` on the dict built by `csv.DictReader` for one data row:
`none` models a raised `KeyError` (column absent from the header); `some
.pyNone` models the `None` a short row is padded with. -/
def dictReaderLookup (header row : List String) (key : String) : Option PyCell :=
  match lastIdxOf key header with
  | none => none
  | some i => if h : i < row.length then some (.cellStr (row.get ⟨i, h⟩)) else some .pyNone

/-- How a catalog load can fail, mirroring the exceptions that escape
`get_csv_ids`. -/
inductive CatalogError where
  | fileNotFound            -- `FileNotFoundError`: csv path does not exist
  | valueError (bad : String) -- re-raised `ValueError: Invalid ID value in CSV`
  | keyError (key : String)  -- uncaught `KeyError` from `row["id"]`
  | typeError               -- uncaught `TypeError` from `int(None)`
deriving DecidableEq, Repr

/-- The row loop of `get_csv_ids` (lines 61–67): for each row, look up the
`id` cell and `int(...)` it into the accumulating set; the first failure
aborts the whole load. `ValueError` from `int` is caught and re-raised as
the documented parse error; `KeyError`/`TypeError` escape unwrapped. -/
def get_csv_ids_go (header : List String) :
    List (List String) → Finset Int → Except CatalogError (Finset Int)
  | [], acc => .ok acc
  | row :: rest, acc =>
    match dictReaderLookup header row "id" with
    | none => .error (.keyError "id")
    | some .pyNone => .error .typeError
    | some (.cellStr s) =>
      match pyParseInt s with
      | none => .error (.valueError s)
      | some n => get_csv_ids_go header rest (insert n acc)

/-- `get_csv_ids` (lines 37–71): `none` models a csv path that does not
exist (`FileNotFoundError` raised before any parsing); otherwise the rows
are folded into a set of integer IDs. -/
def get_csv_ids (file : Option CsvFile) : Except CatalogError (Finset Int) :=
  match file with
  | none => .error .fileNotFound
  | some f => get_csv_ids_go f.header f.rows ∅

/-- The `id`-column cell strings of a file's rows, in row order (rows whose
lookup would not produce a string contribute nothing; on any successful
load every row contributes). -/
def idStringsAux (header : List String) (rows : List (List String)) : List String :=
  rows.filterMap (fun row =>
    match dictReaderLookup header row "id" with
    | some (.cellStr s) => some s
    | _ => none)

/-- The `id`-column cell strings of a catalog file. -/
def idStrings (f : CsvFile) : List String := idStringsAux f.header f.rows

/-! ## Decoded image samples and `int(value)` coercion
(src/atlas_checker.py lines 115–121)

`tif.asarray().flatten()` yields numeric numpy scalars.  A finite float is
a rational; NaN is a separate sentinel (`int(nan)` raises `ValueError`,
caught by the `except (ValueError, TypeError)` at line 120).  Infinities
(`OverflowError`, which that except clause would NOT catch) do not occur
in integer-labelled TIFF data and are outside the modelled domain. -/

/-- One numeric sample decoded from a TIFF plane. -/
inductive Sample where
  | intV (n : Int)   -- integer-typed sample
  | floatV (q : ℚ)   -- finite float sample
  | nanV             -- NaN sentinel
deriving DecidableEq, Repr

/-- Truncation toward zero, the behaviour of Python `int()` on a float. -/
def truncRat (q : ℚ) : Int := if 0 ≤ q then ⌊q⌋ else ⌈q⌉

/-- `int(value)` on a decoded sample, with the `except (ValueError,
TypeError): continue` of lines 118–121 folded in as `none`: an integer
sample is taken as is, a finite float is truncated toward zero, NaN raises
`ValueError` and is skipped. -/
def pyIntOfSample : Sample → Option Int
  | .intV n => some n
  | .floatV q => some (truncRat q)
  | .nanV => none

/-- The outcome of `tifffile` on one globbed path: the flattened list of
samples, or any raised exception (corrupt header, unsupported encoding,
I/O error, or a directory surprisingly matching `*.tif`). -/
inductive TiffDecode where
  | ok (samples : List Sample)
  | corrupt
deriving DecidableEq, Repr

/-- Whether `tifffile` raised on this file (the `except` arm of line 31). -/
def isCorrupt : TiffDecode → Bool
  | .ok _ => false
  | .corrupt => true

/-- One iteration of the file loop of lines 23–32 over the running
(unique values, warnings printed) state: a decodable file unions its
samples into the set, an undecodable one prints one warning and is
skipped. -/
def tiffStep (acc : Finset Sample × Nat) (f : TiffDecode) : Finset Sample × Nat :=
  match f with
  | .ok samples => (acc.1 ∪ samples.toFinset, acc.2)
  | .corrupt => (acc.1, acc.2 + 1)

/-- `get_unique_values_from_tiff_dir` (lines 10–34): left-fold of
`tiffStep` over the globbed files in order, from the empty set.  Returns
(unique values, number of warnings printed). -/
def get_unique_values_from_tiff_dir (files : List TiffDecode) : Finset Sample × Nat :=
  files.foldl tiffStep (∅, 0)

/-- The integer-coercion loop of lines 116–121: every sample that
`int(...)` accepts lands in the set; the rest are skipped. -/
def tiffIntegers (vals : Finset Sample) : Finset Int :=
  vals.biUnion (fun v => (pyIntOfSample v).toFinset)

/-- The reconciliation step, line 124: `tiff_integers - csv_ids`, Python's
asymmetric set difference. -/
def reconcile (discovered catalog : Finset Int) : Finset Int :=
  discovered \ catalog

/-! ## Filesystem tree, `rglob` traversal and the scan
(src/atlas_checker.py lines 74–130) -/

/-- A filesystem entry: a file (with what `tifffile` would make of it) or
a directory with children.  Symlink cycles are a stated non-goal of the
program, so the tree is finite. -/
inductive FSEntry where
  | file (name : String) (content : TiffDecode)
  | dir (name : String) (children : List FSEntry)

/-- The entry's name, the last component of its path. -/
def entryName : FSEntry → String
  | .file n _ => n
  | .dir n _ => n

/-- `Path.is_dir()` for an entry of the tree (line 107). -/
def isDirEntry : FSEntry → Bool
  | .file _ _ => false
  | .dir _ _ => true

mutual

/-- All proper descendants of an entry, each paired with its absolute
path (`prefixPath ++ "/" ++ name` chains), in depth-first order. -/
def subEntries (prefixPath : String) : FSEntry → List (String × FSEntry)
  | .file _ _ => []
  | .dir n children => subEntriesList (prefixPath ++ "/" ++ n) children

/-- Descendant enumeration over a child list: each child itself, then its
own descendants, left to right. -/
def subEntriesList (prefixPath : String) : List FSEntry → List (String × FSEntry)
  | [] => []
  | e :: rest =>
    (prefixPath ++ "/" ++ entryName e, e) :: subEntries prefixPath e
      ++ subEntriesList prefixPath rest

end

/-- `root_path.rglob(target)` for a wildcard-free target (line 103):
every proper descendant of the root whose name equals `target`, files and
directories alike, in traversal order.  A file root has no descendants. -/
def rglob (target rootPath : String) (root : FSEntry) : List (String × FSEntry) :=
  (subEntries rootPath root).filter (fun pr => entryName pr.2 = target)

/-- The reserved label-directory name (line 103). -/
def labelDirName : String := "atlaslabel_def_origspace"

/-- The directories the scan loop actually processes (lines 106–107):
`rglob` matches filtered by `is_dir()`. -/
def labelDirEntries (rootPath : String) (root : FSEntry) : List (String × FSEntry) :=
  (rglob labelDirName rootPath root).filter (fun pr => isDirEntry pr.2)

/-- `Path(directory).glob("*.tif")` over a directory's children (line 23):
entries whose name ends in `.tif` (case-sensitive), in order.  `glob` also
matches a subdirectory named `*.tif`; opening it with `tifffile.TiffFile`
raises, which the per-file handler turns into a warning, so such an entry
is modelled as an undecodable file. -/
def globTifs : List FSEntry → List TiffDecode
  | [] => []
  | .file n c :: rest =>
    if n.endsWith ".tif" then c :: globTifs rest else globTifs rest
  | .dir n _ :: rest =>
    if n.endsWith ".tif" then .corrupt :: globTifs rest else globTifs rest

/-- The `.tif` payloads of an entry (empty for a file). -/
def entryTifs : FSEntry → List TiffDecode
  | .file _ _ => []
  | .dir _ children => globTifs children

/-- How `scan_for_label_directories` can fail. -/
inductive ScanError where
  | rootNotFound              -- `ValueError: Root path ... does not exist` (line 97)
  | catalog (e : CatalogError) -- propagated from `get_csv_ids` (line 100)
deriving DecidableEq, Repr

/-- `scan_for_label_directories` (lines 74–130): root existence check,
then the one-time catalog load, then one report entry per matched
directory: its absolute path mapped to `tiff_integers - csv_ids`.  The
report is the insertion-ordered dict of line 89/124.  (The per-directory
`except Exception` of line 127 has nothing left to catch once decode
errors are absorbed per file and `int(value)` errors per sample.) -/
def scan_for_label_directories (root : Option (String × FSEntry)) (csv : Option CsvFile) :
    Except ScanError (List (String × Finset Int)) :=
  match root with
  | none => .error .rootNotFound
  | some (rootPath, rootEntry) =>
    match get_csv_ids csv with
    | .error e => .error (.catalog e)
    | .ok csv_ids =>
      .ok ((labelDirEntries rootPath rootEntry).map
        (fun pr =>
          (pr.1,
            reconcile (tiffIntegers (get_unique_values_from_tiff_dir (entryTifs pr.2)).1)
              csv_ids)))

/-! ## Output boundary of `main` (src/atlas_checker.py lines 183–194) -/

/-- CPython set iteration order, modelled for the sets this program can
serialize when they are small: for a set of at most 4 non-negative
machine-small ints with pairwise distinct residues mod 8, the hash table
keeps its initial 8 slots, `hash(n) = n`, each element sits in slot
`n & 7`, and iteration scans the slots in ascending order.  (For ≥ 5
elements or colliding residues the table grows/probes and the order is
given by the same mechanism at a larger size; the claims only need the
small case.)  Elements sharing a residue are listed ascending within the
slot, an arbitrary tie-break outside the modelled domain. -/
def pySetIter (s : Finset Int) : List Int :=
  (List.range 8).flatMap
    (fun slot => (s.filter (fun n => 0 ≤ n ∧ n % 8 = (slot : Int))).sort (· ≤ ·))

/-- `SetEncoder.default` (lines 133–139): a `set` is serialized as
`list(obj)` — the set's iteration order, with no sorting applied. -/
def SetEncoder_default (s : Finset Int) : List Int := pySetIter s

/-- JSON mode (lines 183–186): `json.dump(results, f, cls=SetEncoder)`
writes the top-level object with one member per report entry, its value
the array `SetEncoder.default` produces for the missing-ID set. -/
def json_output (report : List (String × Finset Int)) : List (String × List Int) :=
  report.map (fun pr => (pr.1, SetEncoder_default pr.2))

/-- Console mode (lines 188–194): for EVERY entry of the report dict, echo
the directory path and `sorted(missing_ids)`.  Modelled at the data level:
the pairs (path, sorted missing list) printed, in report order. -/
def console_output (report : List (String × Finset Int)) : List (String × List Int) :=
  report.map (fun pr => (pr.1, pr.2.sort (· ≤ ·)))

/-! ## Claims -/

/-- C1: for every discovered value set D and every catalog C, the
reconciliation step returns exactly the asymmetric set difference D \ C,
and the result is empty if and only if D is a subset of C. -/
theorem C1_reconcile_exact_difference (d c : Finset Int) :
    reconcile d c = d \ c ∧ (reconcile d c = ∅ ↔ d ⊆ c) :=
  ⟨rfl, Finset.sdiff_eq_empty_iff_subset⟩

/-- C2 counterexample: the decoded sample 5/2 carries a non-zero
fractional part, yet `int(value)` truncates it to 2 and the directory's
value set receives 2 — the sample is neither excluded nor raised as an
error, refuting the claim that fractional samples are silently dropped. -/
theorem C2_counterexample :
    (¬ ∃ n : Int, (5 : ℚ) / 2 = (n : ℚ)) ∧
    pyIntOfSample (.floatV ((5 : ℚ) / 2)) = some 2 ∧
    tiffIntegers {Sample.floatV ((5 : ℚ) / 2)} = {2} := by
  have hval : pyIntOfSample (.floatV ((5 : ℚ) / 2)) = some 2 := by
    show some (truncRat ((5 : ℚ) / 2)) = some 2
    unfold truncRat
    rw [if_pos (by norm_num)]
    norm_num [Int.floor_eq_iff]
  refine ⟨?_, hval, ?_⟩
  · rintro ⟨n, hn⟩
    have h2 : (2 : ℚ) * (n : ℚ) = 5 := by rw [← hn]; ring
    have h3 : (2 : Int) * n = 5 := by exact_mod_cast h2
    omega
  · show Finset.biUnion _ _ = _
    rw [Finset.singleton_biUnion, hval]
    rfl

/-- C2 amended: an integer-typed sample contributes its exact value, a
finite float sample always contributes — truncated toward zero to an
integer within distance 1 and of no greater magnitude — and only a
non-numeric sentinel (NaN) is silently excluded. -/
theorem C2_amended_truncation_semantics :
    (∀ n : Int, pyIntOfSample (.intV n) = some n) ∧
    (∀ q : ℚ, ∃ n : Int, pyIntOfSample (.floatV q) = some n ∧
      |(n : ℚ)| ≤ |q| ∧ |q - (n : ℚ)| < 1) ∧
    pyIntOfSample .nanV = none := by
  refine ⟨fun n => rfl, fun q => ?_, rfl⟩
  refine ⟨truncRat q, rfl, ?_, ?_⟩
  · unfold truncRat
    by_cases h : 0 ≤ q
    · rw [if_pos h]
      have h1 : (0 : ℚ) ≤ (⌊q⌋ : ℚ) := by exact_mod_cast Int.floor_nonneg.mpr h
      rw [abs_of_nonneg h1, abs_of_nonneg h]
      exact Int.floor_le q
    · push_neg at h
      rw [if_neg (not_le.mpr h)]
      have h1 : (⌈q⌉ : ℚ) ≤ 0 := by
        exact_mod_cast Int.ceil_le.mpr (by exact_mod_cast le_of_lt h)
      rw [abs_of_nonpos h1, abs_of_nonpos (le_of_lt h)]
      have := Int.le_ceil q
      linarith
  · unfold truncRat
    by_cases h : 0 ≤ q
    · rw [if_pos h]
      have h1 : (⌊q⌋ : ℚ) ≤ q := Int.floor_le q
      have h2 : q - (⌊q⌋ : ℚ) < 1 := by
        have := Int.lt_floor_add_one q
        linarith
      rw [abs_of_nonneg (by linarith)]
      exact h2
    · push_neg at h
      rw [if_neg (not_le.mpr h)]
      have h1 : q ≤ (⌈q⌉ : ℚ) := Int.le_ceil q
      have h2 : (⌈q⌉ : ℚ) < q + 1 := Int.ceil_lt_add_one q
      rw [abs_of_nonpos (by linarith)]
      linarith

/-- C8 counterexample: a report entry with an empty missing-ID set is
still printed in console mode (as its path with `[]`), refuting the claim
that only directories with non-empty missing sets produce output. -/
theorem C8_counterexample :
    console_output [("/data/atlaslabel_def_origspace", (∅ : Finset Int))] =
      [("/data/atlaslabel_def_origspace", [])] ∧
    console_output [("/data/atlaslabel_def_origspace", (∅ : Finset Int))] ≠ [] := by
  refine ⟨?_, ?_⟩ <;> simp [console_output, Finset.sort_empty]

/-- C8 amended: console mode prints EVERY directory of the report — empty
missing set included — and each printed entry pairs the directory's path
with its missing IDs as a sorted ascending list (which, coming from
`sorted` over a set, also lists no ID twice). -/
theorem C8_amended_every_entry_printed (report : List (String × Finset Int)) :
    (console_output report).map Prod.fst = report.map Prod.fst ∧
    List.Forall₂
      (fun out inp => out.1 = inp.1 ∧ out.2.Sorted (· ≤ ·) ∧ out.2.Nodup ∧
        ∀ x : Int, x ∈ out.2 ↔ x ∈ inp.2)
      (console_output report) report := by
  constructor
  · simp [console_output]
  · induction report with
    | nil => exact List.Forall₂.nil
    | cons hd tl ih =>
      refine List.Forall₂.cons
        ⟨rfl, Finset.sort_sorted _ _, Finset.sort_nodup _ _, fun x => Finset.mem_sort _⟩ ih

/-- A key that occurs nowhere in the header has no last index. -/
theorem lastIdxOf_eq_none {key : String} {header : List String} (h : key ∉ header) :
    lastIdxOf key header = none := by
  unfold lastIdxOf
  have hall : ∀ pr ∈ header.enum, pr.2 ≠ key := by
    intro pr hpr heq
    apply h
    rw [← List.enum_map_snd header]
    exact heq ▸ List.mem_map_of_mem Prod.snd hpr
  generalize header.enum = l at hall
  induction l with
  | nil => rfl
  | cons hd tl ih =>
    rw [List.foldl_cons, if_neg (hall hd (List.mem_cons_self hd tl))]
    exact ih (fun pr hpr => hall pr (List.mem_cons_of_mem hd hpr))

/-- If some row's `id` cell is a string that `int(...)` rejects, the whole
load fails: `get_csv_ids_go` never returns a set. -/
theorem get_csv_ids_go_error (header : List String) (rows : List (List String))
    (hbad : ∃ row ∈ rows, ∃ s, dictReaderLookup header row "id" = some (.cellStr s) ∧
      pyParseInt s = none) :
    ∀ acc, ∃ e, get_csv_ids_go header rows acc = .error e := by
  induction rows with
  | nil => simp at hbad
  | cons row rest ih =>
    intro acc
    obtain ⟨r, hr, s, hl, hp⟩ := hbad
    cases hd : dictReaderLookup header row "id" with
    | none => exact ⟨.keyError "id", by simp only [get_csv_ids_go, hd]⟩
    | some cell =>
      cases cell with
      | pyNone => exact ⟨.typeError, by simp only [get_csv_ids_go, hd]⟩
      | cellStr s0 =>
        cases hp0 : pyParseInt s0 with
        | none => exact ⟨.valueError s0, by simp only [get_csv_ids_go, hd, hp0]⟩
        | some n =>
          rcases List.mem_cons.mp hr with heq | hmem
          · subst heq
            rw [hd] at hl
            simp only [Option.some.injEq, PyCell.cellStr.injEq] at hl
            subst hl
            rw [hp0] at hp
            cases hp
          · obtain ⟨e, he⟩ := ih ⟨r, hmem, s, hl, hp⟩ (insert n acc)
            exact ⟨e, by simp only [get_csv_ids_go, hd, hp0]; exact he⟩

/-- Characterization of a successful row fold: the resulting set is the
accumulator plus exactly the integers parsed from the rows' `id` cells. -/
theorem get_csv_ids_go_ok_mem (header : List String) (rows : List (List String)) :
    ∀ (acc s : Finset Int), get_csv_ids_go header rows acc = .ok s →
      ∀ x : Int, x ∈ s ↔ x ∈ acc ∨ ∃ str ∈ idStringsAux header rows, pyParseInt str = some x := by
  induction rows with
  | nil =>
    intro acc s h x
    unfold get_csv_ids_go at h
    cases h
    simp [idStringsAux]
  | cons row rest ih =>
    intro acc s h x
    cases hd : dictReaderLookup header row "id" with
    | none =>
      simp only [get_csv_ids_go, hd] at h
      exact Except.noConfusion h
    | some cell =>
      cases cell with
      | pyNone =>
        simp only [get_csv_ids_go, hd] at h
        exact Except.noConfusion h
      | cellStr s0 =>
        cases hp0 : pyParseInt s0 with
        | none =>
          simp only [get_csv_ids_go, hd, hp0] at h
          exact Except.noConfusion h
        | some n =>
          simp only [get_csv_ids_go, hd, hp0] at h
          have hstr : idStringsAux header (row :: rest) = s0 :: idStringsAux header rest := by
            unfold idStringsAux
            rw [List.filterMap_cons]
            simp [hd]
          rw [hstr]
          rw [ih (insert n acc) s h x]
          simp only [Finset.mem_insert, List.mem_cons]
          constructor
          · rintro (⟨rfl | hx⟩ | ⟨str, hs, hps⟩)
            · exact Or.inr ⟨s0, Or.inl rfl, hp0⟩
            · exact Or.inl hx
            · exact Or.inr ⟨str, Or.inr hs, hps⟩
          · rintro (hx | ⟨str, rfl | hs, hps⟩)
            · exact Or.inl (Or.inr hx)
            · rw [hp0] at hps
              cases hps
              exact Or.inl (Or.inl rfl)
            · exact Or.inr ⟨str, hs, hps⟩

/-- C3: catalog loading is all-or-nothing and precedes directory work: a
missing catalog file aborts the scan with the file-not-found error and no
report; a row whose `id` cell fails integer parsing makes the whole load
fail, so no partial catalog is ever returned and the scan aborts too. -/
theorem C3_catalog_all_or_nothing (rootPath : String) (root : FSEntry) (f : CsvFile)
    (hbad : ∃ row ∈ f.rows, ∃ s, dictReaderLookup f.header row "id" = some (.cellStr s) ∧
      pyParseInt s = none) :
    scan_for_label_directories (some (rootPath, root)) none =
      .error (.catalog .fileNotFound) ∧
    ∃ e, get_csv_ids (some f) = .error e ∧
      scan_for_label_directories (some (rootPath, root)) (some f) = .error (.catalog e) := by
  constructor
  · rfl
  · obtain ⟨e, he⟩ := get_csv_ids_go_error f.header f.rows hbad ∅
    refine ⟨e, he, ?_⟩
    show (match get_csv_ids (some f) with
      | .error e => Except.error (ScanError.catalog e)
      | .ok csv_ids => _) = _
    rw [show get_csv_ids (some f) = .error e from he]

/-- C3 witness: a catalog with the unparsable id cell `"x"` behaves as the
theorem states for a concrete one-directory tree. -/
theorem C3_witness :
    (∃ row ∈ [["x"]], ∃ s,
      dictReaderLookup ["id"] row "id" = some (.cellStr s) ∧ pyParseInt s = none) ∧
    (scan_for_label_directories
        (some ("/r", .dir "r" [])) none = .error (.catalog .fileNotFound) ∧
      ∃ e, get_csv_ids (some ⟨["id"], [["x"]]⟩) = .error e ∧
        scan_for_label_directories (some ("/r", .dir "r" []))
          (some ⟨["id"], [["x"]]⟩) = .error (.catalog e)) :=
  ⟨⟨["x"], by decide, "x", by decide, by decide⟩,
    C3_catalog_all_or_nothing "/r" (.dir "r" []) ⟨["id"], [["x"]]⟩
      ⟨["x"], by decide, "x", by decide, by decide⟩⟩

/-- C10: a catalog CSV whose header lacks an `id` column fails with the
unwrapped KeyError as soon as there is a data row, and loads successfully
to the empty set when there are no data rows. -/
theorem C10_missing_id_column (header : List String) (rows : List (List String))
    (hno : "id" ∉ header) (hne : rows ≠ []) :
    get_csv_ids (some ⟨header, rows⟩) = .error (.keyError "id") ∧
    (∀ v, CatalogError.keyError "id" ≠ CatalogError.valueError v) ∧
    get_csv_ids (some ⟨header, []⟩) = .ok ∅ := by
  refine ⟨?_, fun v h => CatalogError.noConfusion h, rfl⟩
  match rows, hne with
  | row :: rest, _ =>
    have hlook : dictReaderLookup header row "id" = none := by
      unfold dictReaderLookup
      rw [lastIdxOf_eq_none hno]
    show get_csv_ids_go header (row :: rest) ∅ = .error (.keyError "id")
    simp only [get_csv_ids_go, hlook]

/-- C10 witness: concrete header `["name"]` with one data row fails with
the KeyError; with no data rows it loads to the empty set. -/
theorem C10_missing_id_column_witness :
    ("id" ∉ ["name"]) ∧ ([["7"]] ≠ ([] : List (List String))) ∧
    (get_csv_ids (some ⟨["name"], [["7"]]⟩) = .error (.keyError "id") ∧
      (∀ v, CatalogError.keyError "id" ≠ CatalogError.valueError v) ∧
      get_csv_ids (some ⟨["name"], []⟩) = .ok ∅) :=
  ⟨by decide, by decide, C10_missing_id_column ["name"] [["7"]] (by decide) (by decide)⟩

/-- C9 counterexample: the catalog row `id = "-5"` loads successfully and
puts the negative identifier −5 into the catalog set, refuting the claim
that a successful load admits only non-negative integers. -/
theorem C9_counterexample :
    get_csv_ids (some ⟨["id"], [["-5"]]⟩) = .ok {-5} ∧
    ∃ x ∈ ({-5} : Finset Int), x < 0 := by
  refine ⟨by decide, ⟨-5, by decide, by decide⟩⟩

/-- C9 amended: a successful catalog load admits exactly the integers that
Python `int` parses from the rows' `id` cells — any integer, negative
values included (`int("-5") = -5`), with no sign restriction. -/
theorem C9_amended_parsed_values (f : CsvFile) (s : Finset Int)
    (h : get_csv_ids (some f) = .ok s) :
    (∀ x : Int, x ∈ s ↔ ∃ str ∈ idStrings f, pyParseInt str = some x) ∧
    pyParseInt "-5" = some (-5) := by
  refine ⟨fun x => ?_, by decide⟩
  have hgo : get_csv_ids_go f.header f.rows ∅ = .ok s := h
  rw [get_csv_ids_go_ok_mem f.header f.rows ∅ s hgo x]
  simp [idStrings]

/-- C9 amended witness: the concrete load of `id = "-5"` satisfies the
characterization. -/
theorem C9_amended_parsed_values_witness :
    get_csv_ids (some ⟨["id"], [["-5"]]⟩) = .ok {-5} ∧
    ((∀ x : Int, x ∈ ({-5} : Finset Int) ↔
        ∃ str ∈ idStrings ⟨["id"], [["-5"]]⟩, pyParseInt str = some x) ∧
      pyParseInt "-5" = some (-5)) :=
  ⟨by decide, C9_amended_parsed_values ⟨["id"], [["-5"]]⟩ {-5} (by decide)⟩

/-- C6: catalog loading is insensitive to row order and row multiplicity:
two catalog files whose rows carry the same set of `id` cell values load —
when they load successfully — to identical ID sets. -/
theorem C6_order_multiplicity_insensitive (f1 f2 : CsvFile) (s1 s2 : Finset Int)
    (h1 : get_csv_ids (some f1) = .ok s1) (h2 : get_csv_ids (some f2) = .ok s2)
    (hsame : ∀ str : String, str ∈ idStrings f1 ↔ str ∈ idStrings f2) :
    s1 = s2 := by
  ext x
  rw [get_csv_ids_go_ok_mem f1.header f1.rows ∅ s1 h1 x,
    get_csv_ids_go_ok_mem f2.header f2.rows ∅ s2 h2 x]
  simp only [Finset.not_mem_empty, false_or]
  constructor
  · rintro ⟨str, hs, hp⟩
    exact ⟨str, (hsame str).mp hs, hp⟩
  · rintro ⟨str, hs, hp⟩
    exact ⟨str, (hsame str).mpr hs, hp⟩

/-- C6 witness: `[id=7, id=3]` and `[id=3, id=7, id=7]` — different order,
duplicated row — load to the same catalog set. -/
theorem C6_order_multiplicity_insensitive_witness :
    get_csv_ids (some ⟨["id"], [["7"], ["3"]]⟩) = .ok {3, 7} ∧
    get_csv_ids (some ⟨["id"], [["3"], ["7"], ["7"]]⟩) = .ok {3, 7} ∧
    ({3, 7} : Finset Int) = {3, 7} :=
  ⟨by decide, by decide,
    C6_order_multiplicity_insensitive ⟨["id"], [["7"], ["3"]]⟩
      ⟨["id"], [["3"], ["7"], ["7"]]⟩ {3, 7} {3, 7} (by decide) (by decide)
      (by
        intro str
        have e1 : idStrings ⟨["id"], [["7"], ["3"]]⟩ = ["7", "3"] := by decide
        have e2 : idStrings ⟨["id"], [["3"], ["7"], ["7"]]⟩ = ["3", "7", "7"] := by decide
        rw [e1, e2]
        simp only [List.mem_cons, List.not_mem_nil, or_false]
        tauto)⟩

/-- Characterization of the file fold of
`get_unique_values_from_tiff_dir` from any starting state: the value set
gains exactly the samples of the decodable files, and the warning count
grows by the number of undecodable ones. -/
theorem tiffStep_foldl_spec (files : List TiffDecode) :
    ∀ init : Finset Sample × Nat,
      (∀ v : Sample, v ∈ (files.foldl tiffStep init).1 ↔
        v ∈ init.1 ∨ ∃ ss, TiffDecode.ok ss ∈ files ∧ v ∈ ss) ∧
      (files.foldl tiffStep init).2 = init.2 + (files.filter isCorrupt).length := by
  induction files with
  | nil => intro init; simp
  | cons f rest ih =>
    intro init
    cases f with
    | ok ss =>
      have h := ih (init.1 ∪ ss.toFinset, init.2)
      constructor
      · intro v
        rw [List.foldl_cons]
        show v ∈ (rest.foldl tiffStep (init.1 ∪ ss.toFinset, init.2)).1 ↔ _
        rw [(h.1 v)]
        simp only [Finset.mem_union, List.mem_toFinset, List.mem_cons]
        constructor
        · rintro ((hv | hv) | ⟨ss1, hm, hv⟩)
          · exact Or.inl hv
          · exact Or.inr ⟨ss, Or.inl rfl, hv⟩
          · exact Or.inr ⟨ss1, Or.inr hm, hv⟩
        · rintro (hv | ⟨ss1, heq | hm, hv⟩)
          · exact Or.inl (Or.inl hv)
          · cases heq; exact Or.inl (Or.inr hv)
          · exact Or.inr ⟨ss1, hm, hv⟩
      · rw [List.foldl_cons]
        show (rest.foldl tiffStep (init.1 ∪ ss.toFinset, init.2)).2 = _
        rw [h.2]
        simp [isCorrupt]
    | corrupt =>
      have h := ih (init.1, init.2 + 1)
      constructor
      · intro v
        rw [List.foldl_cons]
        show v ∈ (rest.foldl tiffStep (init.1, init.2 + 1)).1 ↔ _
        rw [(h.1 v)]
        simp only [List.mem_cons]
        constructor
        · rintro (hv | ⟨ss1, hm, hv⟩)
          · exact Or.inl hv
          · exact Or.inr ⟨ss1, Or.inr hm, hv⟩
        · rintro (hv | ⟨ss1, heq | hm, hv⟩)
          · exact Or.inl hv
          · exact absurd heq (by intro h0; cases h0)
          · exact Or.inr ⟨ss1, hm, hv⟩
      · rw [List.foldl_cons]
        show (rest.foldl tiffStep (init.1, init.2 + 1)).2 = _
        rw [h.2]
        simp [isCorrupt]
        omega

/-- C5: per-file decode failures are isolated: a directory's value set is
exactly the union of the samples of the files that decoded, one warning is
printed per undecodable file, and — whenever the catalog loads — the scan
still succeeds with one report entry per matched directory, whatever mix
of decodable and undecodable files those directories hold. -/
theorem C5_decode_failure_isolated (files : List TiffDecode) (rootPath : String)
    (root : FSEntry) (f : CsvFile) (s : Finset Int)
    (h : get_csv_ids (some f) = .ok s) :
    (∀ v : Sample, v ∈ (get_unique_values_from_tiff_dir files).1 ↔
      ∃ ss, TiffDecode.ok ss ∈ files ∧ v ∈ ss) ∧
    (get_unique_values_from_tiff_dir files).2 = (files.filter isCorrupt).length ∧
    ∃ report, scan_for_label_directories (some (rootPath, root)) (some f) = .ok report ∧
      report.map Prod.fst = (labelDirEntries rootPath root).map Prod.fst := by
  have hf := tiffStep_foldl_spec files (∅, 0)
  refine ⟨fun v => ?_, ?_, ?_⟩
  · rw [show (get_unique_values_from_tiff_dir files).1 = (files.foldl tiffStep (∅, 0)).1
      from rfl, hf.1 v]
    simp
  · rw [show (get_unique_values_from_tiff_dir files).2 = (files.foldl tiffStep (∅, 0)).2
      from rfl, hf.2]
    simp
  · refine ⟨(labelDirEntries rootPath root).map
      (fun pr =>
        (pr.1,
          reconcile (tiffIntegers (get_unique_values_from_tiff_dir (entryTifs pr.2)).1) s)),
      ?_, ?_⟩
    · show (match get_csv_ids (some f) with
        | .error e => Except.error (ScanError.catalog e)
        | .ok csv_ids => _) = _
      rw [show get_csv_ids (some f) = .ok s from h]
    · rw [List.map_map]
      rfl

/-- C7: the scan processes exactly the descendants of the root, at any
depth, whose name is the reserved `atlaslabel_def_origspace` and which are
directories; a file coincidentally bearing the name is matched by `rglob`
but dropped by the `is_dir()` check and never yields a report entry. -/
theorem C7_label_directory_match (rootPath : String) (root : FSEntry) :
    (∀ pr ∈ labelDirEntries rootPath root,
      pr ∈ subEntries rootPath root ∧ entryName pr.2 = labelDirName ∧
        isDirEntry pr.2 = true) ∧
    (∀ pr ∈ subEntries rootPath root,
      entryName pr.2 = labelDirName → isDirEntry pr.2 = true →
        pr ∈ labelDirEntries rootPath root) ∧
    (∀ (p n : String) (c : TiffDecode),
      (p, FSEntry.file n c) ∉ labelDirEntries rootPath root) ∧
    (∀ (f : CsvFile) (s : Finset Int) (report : List (String × Finset Int)),
      get_csv_ids (some f) = .ok s →
      scan_for_label_directories (some (rootPath, root)) (some f) = .ok report →
      report.map Prod.fst = (labelDirEntries rootPath root).map Prod.fst) := by
  have hchar : ∀ pr, pr ∈ labelDirEntries rootPath root ↔
      pr ∈ subEntries rootPath root ∧ entryName pr.2 = labelDirName ∧
        isDirEntry pr.2 = true := by
    intro pr
    unfold labelDirEntries rglob
    simp only [List.mem_filter, decide_eq_true_eq]
    tauto
  refine ⟨fun pr h => (hchar pr).mp h,
    fun pr h h1 h2 => (hchar pr).mpr ⟨h, h1, h2⟩,
    fun p n c h => by
      have := ((hchar (p, .file n c)).mp h).2.2
      simp [isDirEntry] at this,
    fun f s report hcsv hscan => ?_⟩
  simp only [scan_for_label_directories, hcsv] at hscan
  injection hscan with h0
  rw [← h0, List.map_map]
  rfl

/-- C7 witness: in a tree holding a decoy FILE named
`atlaslabel_def_origspace` and a genuine directory of that name one level
deeper, the matched-directory list contains the directory, excludes the
file, and the report keys are exactly the matched directories. -/
theorem C7_witness :
    (("/r/r/sub/atlaslabel_def_origspace",
        FSEntry.dir "atlaslabel_def_origspace" []) ∈
      labelDirEntries "/r"
        (.dir "r" [.file "atlaslabel_def_origspace" (.ok []),
          .dir "sub" [.dir "atlaslabel_def_origspace" []]])) ∧
    (∀ c, ("/r/r/atlaslabel_def_origspace",
        FSEntry.file "atlaslabel_def_origspace" c) ∉
      labelDirEntries "/r"
        (.dir "r" [.file "atlaslabel_def_origspace" (.ok []),
          .dir "sub" [.dir "atlaslabel_def_origspace" []]])) ∧
    (∀ report, get_csv_ids (some ⟨["id"], [["1"]]⟩) = .ok {1} →
      scan_for_label_directories
        (some ("/r", .dir "r" [.file "atlaslabel_def_origspace" (.ok []),
          .dir "sub" [.dir "atlaslabel_def_origspace" []]]))
        (some ⟨["id"], [["1"]]⟩) = .ok report →
      report.map Prod.fst =
        (labelDirEntries "/r"
          (.dir "r" [.file "atlaslabel_def_origspace" (.ok []),
            .dir "sub" [.dir "atlaslabel_def_origspace" []]])).map Prod.fst) := by
  refine ⟨?_, ?_, ?_⟩
  · apply (C7_label_directory_match "/r" _).2.1
    · show _ ∈ subEntriesList "/r/r" _
      simp only [subEntriesList, subEntries, entryName, List.mem_cons]
      tauto
    · rfl
    · rfl
  · intro c
    exact (C7_label_directory_match "/r" _).2.2.1 _ _ c
  · intro report h1 h2
    exact (C7_label_directory_match "/r" _).2.2.2 _ {1} report h1 h2

/-- C5 witness: one decodable and one corrupt file in a matched directory:
the value set keeps the decoded sample, one warning is counted, and the
concrete scan still reports the directory. -/
theorem C5_decode_failure_isolated_witness :
    get_csv_ids (some ⟨["id"], [["1"]]⟩) = .ok {1} ∧
    ((∀ v : Sample,
        v ∈ (get_unique_values_from_tiff_dir
          [TiffDecode.ok [Sample.intV 5], TiffDecode.corrupt]).1 ↔
        ∃ ss, TiffDecode.ok ss ∈ [TiffDecode.ok [Sample.intV 5], TiffDecode.corrupt] ∧
          v ∈ ss) ∧
      (get_unique_values_from_tiff_dir
        [TiffDecode.ok [Sample.intV 5], TiffDecode.corrupt]).2 =
        ([TiffDecode.ok [Sample.intV 5], TiffDecode.corrupt].filter isCorrupt).length ∧
      ∃ report,
        scan_for_label_directories
          (some ("/r", .dir "r" [.dir "atlaslabel_def_origspace"
            [.file "a.tif" (.ok [.intV 5]), .file "b.tif" .corrupt]]))
          (some ⟨["id"], [["1"]]⟩) = .ok report ∧
        report.map Prod.fst =
          (labelDirEntries "/r" (.dir "r" [.dir "atlaslabel_def_origspace"
            [.file "a.tif" (.ok [.intV 5]), .file "b.tif" .corrupt]])).map Prod.fst) :=
  ⟨by decide,
    C5_decode_failure_isolated [TiffDecode.ok [Sample.intV 5], TiffDecode.corrupt] "/r"
      (.dir "r" [.dir "atlaslabel_def_origspace"
        [.file "a.tif" (.ok [.intV 5]), .file "b.tif" .corrupt]])
      ⟨["id"], [["1"]]⟩ {1} (by decide)⟩

/-- The CPython iteration order of the concrete set {1, 16}: 16 hashes to
slot 0 and 1 to slot 1 of the 8-slot table, so iteration yields 16 first. -/
theorem pySetIter_one_sixteen : pySetIter {1, 16} = [16, 1] := by
  have h0 : (({1, 16} : Finset Int).filter
      (fun n => 0 ≤ n ∧ n % 8 = ((0 : Nat) : Int))) = {16} := by decide
  have h1 : (({1, 16} : Finset Int).filter
      (fun n => 0 ≤ n ∧ n % 8 = ((1 : Nat) : Int))) = {1} := by decide
  have hrest : ∀ k ∈ [2, 3, 4, 5, 6, 7], (({1, 16} : Finset Int).filter
      (fun n => 0 ≤ n ∧ n % 8 = ((k : Nat) : Int))) = ∅ := by decide
  unfold pySetIter
  rw [show List.range 8 = [0, 1, 2, 3, 4, 5, 6, 7] from by decide]
  simp only [List.flatMap_cons, List.flatMap_nil]
  rw [h0, h1, hrest 2 (by decide), hrest 3 (by decide), hrest 4 (by decide),
    hrest 5 (by decide), hrest 6 (by decide), hrest 7 (by decide)]
  rw [Finset.sort_singleton, Finset.sort_singleton, Finset.sort_empty]
  rfl

/-- C4 counterexample: the report entry {1, 16} is serialized in JSON mode
as the array [16, 1] — the set's iteration order — which is not sorted
ascending, refuting the claim that every serialized value is ascending for
every possible report. -/
theorem C4_counterexample :
    json_output [("/r/atlaslabel_def_origspace", ({1, 16} : Finset Int))] =
      [("/r/atlaslabel_def_origspace", [16, 1])] ∧
    ¬ List.Sorted (· ≤ ·) [(16 : Int), 1] := by
  constructor
  · show [("/r/atlaslabel_def_origspace", SetEncoder_default {1, 16})] = _
    rw [show SetEncoder_default {1, 16} = pySetIter {1, 16} from rfl,
      pySetIter_one_sixteen]
  · intro h
    have := List.rel_of_sorted_cons h 1 (List.mem_singleton.mpr rfl)
    omega

/-- Every element of a non-negative set appears in the modelled iteration
order, and nothing else does: each element sits in the slot of its residue
mod 8, and the slots 0..7 cover all residues. -/
theorem mem_pySetIter {s : Finset Int} (hs : ∀ x ∈ s, (0 : Int) ≤ x) (x : Int) :
    x ∈ pySetIter s ↔ x ∈ s := by
  unfold pySetIter
  rw [List.mem_flatMap]
  constructor
  · rintro ⟨slot, _, hx⟩
    rw [Finset.mem_sort] at hx
    exact (Finset.mem_filter.mp hx).1
  · intro hx
    have h1 : 0 ≤ x % 8 := Int.emod_nonneg x (by norm_num)
    have h2 : x % 8 < 8 := Int.emod_lt_of_pos x (by norm_num)
    refine ⟨(x % 8).toNat, ?_, ?_⟩
    · rw [List.mem_range]
      omega
    · rw [Finset.mem_sort, Finset.mem_filter]
      exact ⟨hx, hs x hx, by omega⟩

/-- The modelled iteration order lists no element twice: the slot lists
are sorted duplicate-free and slots hold disjoint residue classes. -/
theorem nodup_pySetIter (s : Finset Int) : (pySetIter s).Nodup := by
  unfold pySetIter
  rw [List.nodup_flatMap]
  refine ⟨fun slot _ => Finset.sort_nodup _ _, ?_⟩
  refine List.Pairwise.imp ?_ (List.pairwise_lt_range 8)
  intro a b hab x hxa hxb
  rw [Finset.mem_sort, Finset.mem_filter] at hxa hxb
  have ha := hxa.2.2
  have hb := hxb.2.2
  omega

/-- C4 amended: in JSON mode every serialized value is an array holding
exactly the directory's missing IDs, each once, in the set's internal
iteration order — which is not in general ascending. -/
theorem C4_amended_json_arrays (report : List (String × Finset Int))
    (h : ∀ pr ∈ report, ∀ x ∈ pr.2, (0 : Int) ≤ x) :
    List.Forall₂
      (fun out inp => out.1 = inp.1 ∧ out.2.Nodup ∧ ∀ x : Int, x ∈ out.2 ↔ x ∈ inp.2)
      (json_output report) report := by
  induction report with
  | nil => exact List.Forall₂.nil
  | cons hd tl ih =>
    refine List.Forall₂.cons
      ⟨rfl, nodup_pySetIter hd.2,
        fun x => mem_pySetIter (h hd (List.mem_cons_self hd tl)) x⟩
      (ih fun pr hpr => h pr (List.mem_cons_of_mem hd hpr))

/-- C4 amended witness: the singleton report over {1, 16} (non-negative
IDs) satisfies the array characterization. -/
theorem C4_amended_json_arrays_witness :
    (∀ pr ∈ [("/d", ({1, 16} : Finset Int))], ∀ x ∈ pr.2, (0 : Int) ≤ x) ∧
    List.Forall₂
      (fun out inp => out.1 = inp.1 ∧ out.2.Nodup ∧ ∀ x : Int, x ∈ out.2 ↔ x ∈ inp.2)
      (json_output [("/d", ({1, 16} : Finset Int))]) [("/d", ({1, 16} : Finset Int))] :=
  ⟨by decide, C4_amended_json_arrays [("/d", ({1, 16} : Finset Int))] (by decide)⟩
